import Mathlib

/-!
# Verification of the Vespucc.ai tool-invocation loop

Shallow embedding of `src/client/mcp_client.py` (`MCPClient.process_query`,
`MCPClient._format_tool_result`, `MCPClient.log_conversation`) and the pieces of
the Python standard library it relies on (`re.findall` specialised to the fixed
pattern `<function=(\w+)\{(.*?)\}>`, and `json.loads`).

Conventions of the embedding:
* Python strings are Lean `String`s (operated on through their `List Char` data).
* Python exceptions are modelled as the `.error` branch of `Except String`;
  the error text abstracts Python's `str(e)` (the loop only ever interpolates
  that text into message content, never inspects it).
* The external collaborators (Groq completion via
  `LanguageModelClient.generate_completion`, MCP tool transport via
  `session.call_tool`, and the conversation-log file write) are parameters of
  the embedding, collected in `Env`; each may raise.
* The unbounded `while True` loop is embedded with explicit fuel; running out
  of fuel is a distinct outcome (`LoopOutcome.spinning`) so that claims about
  terminating runs are provable without deciding termination in general.
* `\w` of the fixed regex is modelled on the ASCII alphabet
  (`[A-Za-z0-9_]`); word characters outside ASCII are outside the modelled
  character set.
* `json.loads` is modelled for JSON values built from objects, arrays,
  strings, integers, booleans and null (the fragments this program decodes);
  floating-point literals are outside the modelled input set.
-/

/-- The opening curly brace character. -/
def lbrace : Char := Char.ofNat 123

/-- The closing curly brace character. -/
def rbrace : Char := Char.ofNat 125

/-- One conversation message as `process_query` constructs them: a dict with
a `"role"` key, a `"content"` key, and (never, in this code path) an optional
`"tool_call_id"` key; absence of the key is modelled as `none`. -/
structure Message where
  role : String
  content : String
  tool_call_id : Option String
deriving DecidableEq, Repr

/-- JSON values as decoded by `json.loads` (restricted to integer numerals). -/
inductive Json where
  | null : Json
  | bool (b : Bool) : Json
  | num (n : Int) : Json
  | str (s : String) : Json
  | arr (elems : List Json) : Json
  | obj (members : List (String × Json)) : Json
deriving Repr

mutual

/-- Structural equality test on JSON values (Python `==` on decoded values,
specialised to the shapes the stubs compare). -/
def Json.beq : Json → Json → Bool
  | .null, .null => true
  | .bool a, .bool b => a == b
  | .num a, .num b => a == b
  | .str a, .str b => a == b
  | .arr as, .arr bs => Json.beqList as bs
  | .obj as, .obj bs => Json.beqMembers as bs
  | _, _ => false

/-- Elementwise `Json.beq` on arrays. -/
def Json.beqList : List Json → List Json → Bool
  | [], [] => true
  | a :: as, b :: bs => Json.beq a b && Json.beqList as bs
  | _, _ => false

/-- Elementwise `Json.beq` on object member lists (order-sensitive, as
`json.loads` preserves member order). -/
def Json.beqMembers : List (String × Json) → List (String × Json) → Bool
  | [], [] => true
  | (k1, v1) :: as, (k2, v2) :: bs => k1 == k2 && Json.beq v1 v2 && Json.beqMembers as bs
  | _, _ => false

end

/-- One element of a list-shaped tool result payload, characterised by the
three probes `_format_tool_result` applies to it: a `text` attribute
(`hasattr(item, "text")`), a `"text"` entry when the item is a dict, and the
`str(item)` rendering (`none` when `str` itself raises). -/
structure ToolItem where
  textAttr : Option String
  dictText : Option String
  strRepr : Option String
deriving DecidableEq, Repr

/-- A tool result payload (`result.content`), shaped as the Python dynamic
type tests of `_format_tool_result` distinguish it: `None`, `str`, `list`,
`dict` (with its optional `"text"` entry, its `json.dumps(content, indent=2)`
rendering when that succeeds, and its `str(content)` rendering when that
succeeds), or any other object (with its `str(content)` rendering). -/
inductive ToolContent where
  | pyNone : ToolContent
  | pyStr (s : String) : ToolContent
  | pyList (items : List ToolItem) : ToolContent
  | pyDict (text : Option String) (dumps : Option String) (strRepr : Option String) : ToolContent
  | pyOther (strRepr : Option String) : ToolContent
deriving DecidableEq, Repr

/-- The conversion of one list item inside `_format_tool_result`: prefer the
`text` attribute, then the `"text"` dict entry, then `str(item)`, and fall
back to the fixed placeholder when `str` raises. -/
def formatItem (it : ToolItem) : String :=
  match it.textAttr with
  | some t => t
  | none =>
    match it.dictText with
    | some t => t
    | none => it.strRepr.getD "[Unprintable item]"

/-- `MCPClient._format_tool_result` (src/client/mcp_client.py lines 250-290). -/
def format_tool_result : ToolContent → String
  | .pyNone => ""
  | .pyStr s => s
  | .pyList items => String.intercalate "\n" (items.map formatItem)
  | .pyDict text dumps strRepr =>
    match text with
    | some t => t
    | none =>
      match dumps with
      | some d => d
      | none => strRepr.getD "[Unprintable content]"
  | .pyOther strRepr => strRepr.getD "[Unprintable content]"

/-! ## `json.loads` (the standard-library decoder used at line 194) -/

/-- JSON insignificant whitespace. -/
def jsonWs (c : Char) : Bool := c == ' ' || c == '\t' || c == '\n' || c == '\r'

/-- Skip insignificant whitespace. -/
def skipWs (cs : List Char) : List Char := cs.dropWhile jsonWs

/-- Value of one hexadecimal digit, if `c` is one. -/
def hexVal (c : Char) : Option Nat :=
  if '0' ≤ c ∧ c ≤ '9' then some (c.toNat - 48)
  else if 'a' ≤ c ∧ c ≤ 'f' then some (c.toNat - 97 + 10)
  else if 'A' ≤ c ∧ c ≤ 'F' then some (c.toNat - 65 + 10)
  else none

/-- Body of a JSON string literal, after the opening quote: returns the decoded
string and the input after the closing quote. Fueled; fuel `cs.length + 1`
always suffices since every step consumes input. -/
def parseJStr : Nat → List Char → List Char → Option (String × List Char)
  | 0, _, _ => none
  | _ + 1, _, [] => none
  | fuel + 1, acc, c :: rest =>
    if c == '"' then some (String.mk acc.reverse, rest)
    else if c == '\\' then
      match rest with
      | [] => none
      | e :: rest2 =>
        if e == '"' then parseJStr fuel ('"' :: acc) rest2
        else if e == '\\' then parseJStr fuel ('\\' :: acc) rest2
        else if e == '/' then parseJStr fuel ('/' :: acc) rest2
        else if e == 'n' then parseJStr fuel ('\n' :: acc) rest2
        else if e == 't' then parseJStr fuel ('\t' :: acc) rest2
        else if e == 'r' then parseJStr fuel ('\r' :: acc) rest2
        else if e == 'b' then parseJStr fuel (Char.ofNat 8 :: acc) rest2
        else if e == 'f' then parseJStr fuel (Char.ofNat 12 :: acc) rest2
        else if e == 'u' then
          match rest2 with
          | h1 :: h2 :: h3 :: h4 :: rest3 =>
            match hexVal h1, hexVal h2, hexVal h3, hexVal h4 with
            | some a, some b, some c2, some d =>
              parseJStr fuel (Char.ofNat (((a * 16 + b) * 16 + c2) * 16 + d) :: acc) rest3
            | _, _, _, _ => none
          | _ => none
        else none
    else if c.toNat < 32 then none
    else parseJStr fuel (c :: acc) rest

/-- A JSON integer numeral: optional minus sign then one or more digits. -/
def parseNum (cs : List Char) : Option (Json × List Char) :=
  match cs with
  | '-' :: rest =>
    let digits := rest.takeWhile Char.isDigit
    if digits.isEmpty then none
    else some (.num (-(digits.foldl (fun n c => n * 10 + (c.toNat - 48)) 0 : Nat)),
               rest.dropWhile Char.isDigit)
  | _ =>
    let digits := cs.takeWhile Char.isDigit
    if digits.isEmpty then none
    else some (.num ((digits.foldl (fun n c => n * 10 + (c.toNat - 48)) 0 : Nat)),
               cs.dropWhile Char.isDigit)

mutual

/-- One JSON value at the head of the input (whitespace-tolerant); returns the
value and the remaining input. -/
def parseValue : Nat → List Char → Option (Json × List Char)
  | 0, _ => none
  | fuel + 1, cs =>
    match skipWs cs with
    | [] => none
    | c :: rest =>
      if c == 'n' then
        match rest with
        | 'u' :: 'l' :: 'l' :: r => some (.null, r)
        | _ => none
      else if c == 't' then
        match rest with
        | 'r' :: 'u' :: 'e' :: r => some (.bool true, r)
        | _ => none
      else if c == 'f' then
        match rest with
        | 'a' :: 'l' :: 's' :: 'e' :: r => some (.bool false, r)
        | _ => none
      else if c == '"' then
        match parseJStr (rest.length + 1) [] rest with
        | some (s, r) => some (.str s, r)
        | none => none
      else if c == '-' || c.isDigit then parseNum (c :: rest)
      else if c == '[' then
        match skipWs rest with
        | ']' :: r => some (.arr [], r)
        | r => match parseElems fuel r with
          | some (vs, r2) => some (.arr vs, r2)
          | none => none
      else if c == lbrace then
        match skipWs rest with
        | c2 :: r =>
          if c2 == rbrace then some (.obj [], r)
          else
            match parseMembers fuel (c2 :: r) with
            | some (kvs, r2) => some (.obj kvs, r2)
            | none => none
        | [] => none
      else none

/-- Comma-separated JSON values up to the closing `]` (input points at the
first element). -/
def parseElems : Nat → List Char → Option (List Json × List Char)
  | 0, _ => none
  | fuel + 1, cs =>
    match parseValue fuel cs with
    | none => none
    | some (v, r) =>
      match skipWs r with
      | ',' :: r2 =>
        match parseElems fuel r2 with
        | some (vs, r3) => some (v :: vs, r3)
        | none => none
      | ']' :: r2 => some ([v], r2)
      | _ => none

/-- Comma-separated `"key": value` members up to the closing brace (input
points at the first member's opening quote). -/
def parseMembers : Nat → List Char → Option (List (String × Json) × List Char)
  | 0, _ => none
  | fuel + 1, cs =>
    match skipWs cs with
    | c :: rest =>
      if c == '"' then
        match parseJStr (rest.length + 1) [] rest with
        | none => none
        | some (k, r) =>
          match skipWs r with
          | ':' :: r2 =>
            match parseValue fuel r2 with
            | none => none
            | some (v, r3) =>
              match skipWs r3 with
              | ',' :: r4 =>
                match parseMembers fuel r4 with
                | some (kvs, r5) => some ((k, v) :: kvs, r5)
                | none => none
              | c2 :: r4 =>
                if c2 == rbrace then some ([(k, v)], r4) else none
              | [] => none
          | _ => none
      else none
    | [] => none

end

/-- `json.loads` (src/client/mcp_client.py line 194): decode a complete JSON
document, requiring the whole input to be consumed up to trailing whitespace.
The error text abstracts the `json.JSONDecodeError` message. -/
def jsonLoads (s : String) : Except String Json :=
  match parseValue (s.length + 1) s.data with
  | none => .error "Invalid JSON"
  | some (v, rest) =>
    if (skipWs rest).isEmpty then .ok v else .error "Extra data"

/-! ## The call-syntax parser: `re.findall` at the fixed pattern of line 163

The pattern is `<function=(\w+)\{(.*?)\}>`. Its matching is deterministic:
after the literal `<function=`, `\w+` takes the maximal run of word
characters (it cannot trade characters with the following literal brace,
which is not a word character), and the lazy `(.*?)` takes the shortest
interior — containing no newline, since `.` excludes it — that is followed by
the literal `}>`. `re.findall` scans left to right, emitting non-overlapping
matches and resuming after each match's end. -/

/-- Python `\w`, on the ASCII alphabet: `[A-Za-z0-9_]`. -/
def isWordChar (c : Char) : Bool := c.isAlphanum || c == '_'

/-- The literal head of the pattern. -/
def functionTag : List Char := '<' :: 'f' :: 'u' :: 'n' :: 'c' :: 't' :: 'i' :: 'o' :: 'n' :: '=' :: []

/-- Strip an expected literal from the head of the input. -/
def dropLit : List Char → List Char → Option (List Char)
  | [], cs => some cs
  | _ :: _, [] => none
  | p :: ps, c :: cs => if c == p then dropLit ps cs else none

/-- The lazy `(.*?)\}>` tail of the pattern: the shortest newline-free
interior followed by `}>`; returns the captured interior and the input after
the match. -/
def lazyInterior : List Char → List Char → Option (String × List Char)
  | acc, c1 :: c2 :: rest =>
    if c1 == rbrace && c2 == '>' then some (String.mk acc.reverse, rest)
    else if c1 == '\n' then none
    else lazyInterior (c1 :: acc) (c2 :: rest)
  | _, _ => none

/-- Attempt the whole pattern anchored at the head of `cs`: on success,
returns the two captured groups (name, interior) and the input after the
match. -/
def matchFragmentAt (cs : List Char) : Option (String × String × List Char) :=
  match dropLit functionTag cs with
  | none => none
  | some cs1 =>
    let name := cs1.takeWhile isWordChar
    if name.isEmpty then none
    else
      match cs1.dropWhile isWordChar with
      | c :: cs2 =>
        if c == lbrace then
          match lazyInterior [] cs2 with
          | some (interior, rest) => some (String.mk name, interior, rest)
          | none => none
        else none
      | [] => none

/-- The left-to-right scan of `re.findall`: try the pattern at each position,
resume after each match. Fueled by the input length (every step consumes at
least one character, so this fuel is always sufficient). -/
def findallAux : Nat → List Char → List (String × String)
  | 0, _ => []
  | _ + 1, [] => []
  | fuel + 1, cs@(_ :: rest) =>
    match matchFragmentAt cs with
    | some (name, interior, after) => (name, interior) :: findallAux fuel after
    | none => findallAux fuel rest

/-- `re.findall(r'<function=(\w+)\{(.*?)\}>', text)`
(src/client/mcp_client.py lines 163-164). -/
def findFunctionCalls (s : String) : List (String × String) :=
  findallAux s.length s.data

/-! ## The tool-invocation loop: `MCPClient.process_query` (lines 131-238)

The three effectful collaborators are parameters: `gen` models
`self.llm.generate_completion` returning the completion content
(`response.choices[0].message.content`, possibly `None`) or raising;
`callTool` models `self.session.call_tool` returning `result.content` or
raising; `logWrite` models `self.log_conversation()` — which serialises
`self.messages` and re-raises any file-write failure (lines 331-337) — as a
function of the message list being written. -/

/-- Python `str.isspace` characters on the ASCII range, as `str.strip()`
removes them. -/
def pyWs (c : Char) : Bool :=
  c == ' ' || c == '\t' || c == '\n' || c == '\r' || c == Char.ofNat 11 || c == Char.ofNat 12

/-- Python `str.strip()` (no arguments): remove leading and trailing
whitespace. -/
def pyStrip (s : String) : String :=
  String.mk (((s.data.dropWhile pyWs).reverse.dropWhile pyWs).reverse)

/-- Python `s.startswith('{')`. -/
def headIsLbrace (s : String) : Bool :=
  match s.data with
  | c :: _ => c == lbrace
  | [] => false

/-- The three external collaborators of `process_query`. -/
structure Env where
  gen : List Message → Except String (Option String)
  callTool : String → Json → Except String ToolContent
  logWrite : List Message → Except String Unit

/-- The `except` branch of the per-call `try` (lines 211-218): append the
tool-error message, then `log_conversation()` — whose own failure is outside
any inner `try` and therefore escapes to the outer handler, carrying the
message list as mutated so far. -/
def toolCallFailure (env : Env) (name : String) (msgs : List Message) (e : String) :
    Except (List Message × String) (List Message) :=
  let msgs1 := msgs ++ [⟨"user", "Error using tool '" ++ name ++ "': " ++ e, none⟩]
  match env.logWrite msgs1 with
  | .ok _ => .ok msgs1
  | .error e2 => .error (msgs1, e2)

/-- One iteration of the `for tool_name, tool_args_str in function_matches`
body (lines 185-218): wrap the raw fragment in braces if needed, decode it,
dispatch the call, format and append the result, and log — any exception
inside the `try` (decode failure, transport failure, or the log write at line
210) lands in `toolCallFailure`. -/
def processOneCall (env : Env) (name argsStr : String) (msgs : List Message) :
    Except (List Message × String) (List Message) :=
  let wrapped := if headIsLbrace (pyStrip argsStr) then argsStr
                 else "\x7b" ++ argsStr ++ "\x7d"
  match jsonLoads wrapped with
  | .error e => toolCallFailure env name msgs e
  | .ok args =>
    match env.callTool name args with
    | .error e => toolCallFailure env name msgs e
    | .ok result =>
      let content := format_tool_result result
      let msgs1 := msgs ++ [⟨"user", "Tool '" ++ name ++ "' returned: " ++ content, none⟩]
      match env.logWrite msgs1 with
      | .ok _ => .ok msgs1
      | .error e => toolCallFailure env name msgs1 e

/-- The whole `for` loop over the parsed matches. -/
def processCalls (env : Env) : List (String × String) → List Message →
    Except (List Message × String) (List Message)
  | [], msgs => .ok msgs
  | (name, argsStr) :: rest, msgs =>
    match processOneCall env name argsStr msgs with
    | .ok msgs1 => processCalls env rest msgs1
    | .error p => .error p

/-- Outcome of the `while True` loop: `done` models the `break` at line 174
(the loop returned the message list normally), `raised` models an exception
escaping the loop body to the outer handler (carrying `self.messages` at that
point), and `spinning` means the fuel ran out with the loop still going. -/
inductive LoopOutcome where
  | done (msgs : List Message) : LoopOutcome
  | raised (msgs : List Message) (e : String) : LoopOutcome
  | spinning (msgs : List Message) : LoopOutcome
deriving DecidableEq, Repr

/-- The message list a loop outcome carries. -/
def LoopOutcome.msgs : LoopOutcome → List Message
  | .done m => m
  | .raised m _ => m
  | .spinning m => m

/-- The `while True` loop of `process_query` (lines 152-218), with explicit
fuel. Each round: call the provider, take its content (`or ""` for `None`),
scan for call fragments, append the assistant message, log, and either break
(no fragments) or process the calls and continue. -/
def processLoop (env : Env) : Nat → List Message → LoopOutcome
  | 0, msgs => .spinning msgs
  | fuel + 1, msgs =>
    match env.gen msgs with
    | .error e => .raised msgs e
    | .ok contentOpt =>
      let assistantContent := contentOpt.getD ""
      let functionMatches := findFunctionCalls assistantContent
      let msgs1 := msgs ++ [⟨"assistant", assistantContent, none⟩]
      match env.logWrite msgs1 with
      | .error e => .raised msgs1 e
      | .ok _ =>
        if functionMatches.isEmpty then .done msgs1
        else
          match processCalls env functionMatches msgs1 with
          | .error (msgs2, e) => .raised msgs2 e
          | .ok msgs2 => processLoop env fuel msgs2

/-- `MCPClient.process_query` (lines 131-238): seed the conversation with the
user message, run the loop, and on an escaped exception apply the outer
handler (lines 222-238), which appends a synthetic assistant error message —
or resets to `[user_message, error_message]` when no user message survived —
and returns normally. `none` means the fuel ran out (the Python loop is
unbounded). -/
def process_query (env : Env) (fuel : Nat) (query : String) : Option (List Message) :=
  let userMessage : Message := ⟨"user", query, none⟩
  match processLoop env fuel [userMessage] with
  | .done msgs => some msgs
  | .spinning _ => none
  | .raised msgs e =>
    let errorMessage : Message :=
      ⟨"assistant", "I'm sorry, I encountered an error: " ++ e, none⟩
    if msgs.isEmpty || !(msgs.any fun m => m.role == "user") then
      some [userMessage, errorMessage]
    else
      some (msgs ++ [errorMessage])

/-! ## Stub environments for the spec's fixture scenarios -/

/-- The round-1 completion of the canonical tool-chain fixture. -/
def round1Text : String := "Let me check. <function=search\x7b\"query\":\"x\"\x7d>"

/-- The round-2 completion of the canonical tool-chain fixture. -/
def round2Text : String := "Here is the answer."

/-- Canonical tool-chain fixture: the provider answers round 1 (seed message
only) with `round1Text` and later rounds with `round2Text`; the transport
answers `call("search", {"query":"x"})` with the payload `{"text":"42"}`;
log writes succeed. -/
def toolChainEnv : Env where
  gen msgs := if msgs.length == 1 then .ok (some round1Text) else .ok (some round2Text)
  callTool name args :=
    if name == "search" && Json.beq args (.obj [("query", .str "x")]) then
      .ok (.pyDict (some "42") none none)
    else .error "Unknown tool"
  logWrite _ := .ok ()

/-- Failure-injection fixture: as `toolChainEnv`, but the transport call
always fails with the given error text. -/
def failingTransportEnv (e : String) : Env where
  gen msgs := if msgs.length == 1 then .ok (some round1Text) else .ok (some round2Text)
  callTool _ _ := .error e
  logWrite _ := .ok ()

/-- Decode-failure fixture: the round-1 completion carries a fragment whose
argument interior is not decodable JSON; the transport would succeed. -/
def badFragmentEnv : Env where
  gen msgs := if msgs.length == 1 then .ok (some "Hmm <function=search\x7bnot json\x7d>")
              else .ok (some round2Text)
  callTool _ _ := .ok (.pyDict (some "42") none none)
  logWrite _ := .ok ()

/-- Plain-answer fixture: the provider always answers with fragment-free
text; log writes succeed. -/
def plainEnv : Env where
  gen _ := .ok (some "Done.")
  callTool _ _ := .error "unused"
  logWrite _ := .ok ()

/-- As `plainEnv`, but every log write fails. -/
def plainLogFailEnv : Env where
  gen _ := .ok (some "Done.")
  callTool _ _ := .error "unused"
  logWrite _ := .error "disk full"

/-- As `toolChainEnv`, but the log write right after the tool-result append
(the only one inside the per-call `try`) fails; all other log writes
succeed. -/
def midLogFailEnv : Env where
  gen msgs := if msgs.length == 1 then .ok (some round1Text) else .ok (some round2Text)
  callTool _ _ := .ok (.pyDict (some "42") none none)
  logWrite msgs := if msgs.length == 3 then .error "disk full" else .ok ()

/-- Provider-unreachable fixture: the provider raises on every call. -/
def raisingProviderEnv : Env where
  gen _ := .error "boom"
  callTool _ _ := .error "unused"
  logWrite _ := .ok ()

/-! ## Small auxiliary definitions used by the statements and proofs -/

/-- The characters of `"a":"b"}>` — the tail of a well-formed fragment after
its opening brace. -/
def abTail : List Char := '"' :: 'a' :: '"' :: ':' :: '"' :: 'b' :: '"' :: rbrace :: '>' :: []

/-- The message list carried by the per-call processing result: on success
the updated `self.messages`, on an escaped exception the `self.messages`
mutated so far. -/
def callMsgs : Except (List Message × String) (List Message) → List Message
  | .ok m => m
  | .error (m, _) => m

/-- The role discipline every message constructed by `process_query`
satisfies: role `"user"` or `"assistant"`, and no `tool_call_id` field. -/
def roleOk (m : Message) : Bool :=
  (m.role == "user" || m.role == "assistant") && m.tool_call_id == none

/-! ## C1: the canonical tool-chain scenario -/

/-- **C1.** Canonical tool-chain scenario: with the fixture provider
(round 1: `Let me check. <function=search{"query":"x"}>`, round 2:
`Here is the answer.`) and the fixture transport
(`call("search", {"query":"x"})` succeeds with payload `{"text":"42"}`),
`process_query` returns — for every query text and any fuel of at least two
rounds — a conversation of exactly 4 messages in order: the seed user
message, the round-1 assistant message with the fragment still embedded, the
tool-result message `Tool 'search' returned: 42`, and the round-2 assistant
message. -/
theorem c1_tool_chain_scenario (q : String) (n : Nat) :
    process_query toolChainEnv (n + 2) q =
      some [⟨"user", q, none⟩,
            ⟨"assistant", round1Text, none⟩,
            ⟨"user", "Tool 'search' returned: 42", none⟩,
            ⟨"assistant", round2Text, none⟩] := rfl

/-! ## C2: no exception escapes `process_query` -/

/-- **C2.** If the Completion Provider raises on every call (with error text
`er` depending arbitrarily on the messages passed), `process_query` returns
normally for every query and any positive fuel, with a conversation of
exactly 2 messages: the seed user message and one synthetic assistant message
reporting the error. Every code path of the embedding returns a message list
(`Option (List Message)`, where `none` only means the unbounded loop was
still running); no exception outcome exists. -/
theorem c2_provider_raise_contained (env : Env) (er : List Message → String)
    (fuel : Nat) (q : String) (hfuel : 1 ≤ fuel)
    (hgen : ∀ msgs, env.gen msgs = .error (er msgs)) :
    process_query env fuel q =
      some [⟨"user", q, none⟩,
            ⟨"assistant", "I'm sorry, I encountered an error: "
              ++ er [⟨"user", q, none⟩], none⟩] := by
  obtain ⟨n, rfl⟩ : ∃ n, fuel = n + 1 :=
    ⟨fuel - 1, (Nat.succ_pred_eq_of_pos hfuel).symm⟩
  simp [process_query, processLoop, hgen]

/-- Witness for C2 at a concrete raising provider, concrete query and fuel. -/
theorem c2_provider_raise_contained_witness :
    process_query raisingProviderEnv 5 "hello" =
      some [⟨"user", "hello", none⟩,
            ⟨"assistant", "I'm sorry, I encountered an error: boom", none⟩] :=
  c2_provider_raise_contained raisingProviderEnv (fun _ => "boom") 5 "hello"
    (by decide) (fun _ => rfl)

/-! ## C3: what a failed log write actually does

`log_conversation` re-raises a failed file write (lines 334-337). The calls
at lines 173, 182 and 218 sit outside the per-call `try`, so a failure there
escapes to the outer handler of `process_query`: the loop does not continue,
and the returned conversation gains a synthetic assistant error message —
unlike a run whose write succeeded. Only the call at line 210 (after a
successful tool-result append) is inside the per-call `try`; a failure there
is contained as a tool-error message and the loop does continue. -/

/-- **C3, counterexample.** Two environments identical except that one's log
write always fails: with the write succeeding `process_query` returns 2
messages, with it failing it returns 3 (an appended error notice) — so a
failed log write does not leave the returned Conversation unaffected, and
the loop does not continue as if the write had succeeded. -/
theorem c3_log_failure_counterexample :
    process_query plainLogFailEnv 1 "hi" =
      some [⟨"user", "hi", none⟩, ⟨"assistant", "Done.", none⟩,
            ⟨"assistant", "I'm sorry, I encountered an error: disk full", none⟩]
    ∧ process_query plainEnv 1 "hi" =
      some [⟨"user", "hi", none⟩, ⟨"assistant", "Done.", none⟩]
    ∧ process_query plainLogFailEnv 1 "hi" ≠ process_query plainEnv 1 "hi" :=
  ⟨rfl, rfl, by decide⟩

/-- **C3, amended.** A log-write failure is reported and never propagated as
an exception to the caller of `process_query` — the call still returns a
message list — but it is not transparent: a failure at the per-iteration log
sites outside the per-call `try` unwinds the loop into the outer handler,
which appends a synthetic assistant error notice and returns; only a failure
at the log site directly after a successful tool-result append is contained
as a tool-error message, after which the loop continues to the next
completion round. -/
theorem c3_log_failure_behaviour (env : Env) (q t e : String) (n : Nat)
    (hgen : ∀ msgs, env.gen msgs = .ok (some t))
    (hlog : ∀ msgs, env.logWrite msgs = .error e) :
    process_query env (n + 1) q =
      some [⟨"user", q, none⟩, ⟨"assistant", t, none⟩,
            ⟨"assistant", "I'm sorry, I encountered an error: " ++ e, none⟩]
    ∧ process_query midLogFailEnv (n + 2) q =
      some [⟨"user", q, none⟩,
            ⟨"assistant", round1Text, none⟩,
            ⟨"user", "Tool 'search' returned: 42", none⟩,
            ⟨"user", "Error using tool 'search': disk full", none⟩,
            ⟨"assistant", round2Text, none⟩] := by
  constructor
  · simp [process_query, processLoop, hgen, hlog]
  · rfl

/-- Witness for C3's amended theorem at concrete environments. -/
theorem c3_log_failure_behaviour_witness :
    process_query plainLogFailEnv 1 "hey" =
      some [⟨"user", "hey", none⟩, ⟨"assistant", "Done.", none⟩,
            ⟨"assistant", "I'm sorry, I encountered an error: disk full", none⟩]
    ∧ process_query midLogFailEnv 2 "hey" =
      some [⟨"user", "hey", none⟩,
            ⟨"assistant", round1Text, none⟩,
            ⟨"user", "Tool 'search' returned: 42", none⟩,
            ⟨"user", "Error using tool 'search': disk full", none⟩,
            ⟨"assistant", round2Text, none⟩] :=
  c3_log_failure_behaviour plainLogFailEnv "hey" "Done." "disk full" 0
    (fun _ => rfl) (fun _ => rfl)

/-! ## C4: per-call failure containment -/

/-- **C4.** For a parsed call fragment whose dispatch fails — the transport
raising with any error text `e` (first conjunct), or the argument fragment
failing to decode (second conjunct) — the loop appends an error message
naming the failing tool instead of a result, does not raise to the caller,
does not terminate there, and proceeds to request another completion with
that error message included as context: the returned conversation is seed,
round-1 assistant message, the `Error using tool 'search': …` notice, and
the round-2 assistant answer. -/
theorem c4_per_call_failure_contained (e q : String) (n : Nat) :
    process_query (failingTransportEnv e) (n + 2) q =
      some [⟨"user", q, none⟩,
            ⟨"assistant", round1Text, none⟩,
            ⟨"user", "Error using tool 'search': " ++ e, none⟩,
            ⟨"assistant", round2Text, none⟩]
    ∧ process_query badFragmentEnv (n + 2) q =
      some [⟨"user", q, none⟩,
            ⟨"assistant", "Hmm <function=search\x7bnot json\x7d>", none⟩,
            ⟨"user", "Error using tool 'search': Invalid JSON", none⟩,
            ⟨"assistant", round2Text, none⟩] :=
  ⟨rfl, rfl⟩

/-! ## Lemmas about the call-syntax parser -/

/-- The scan returns nothing on empty input, whatever the fuel. -/
lemma findallAux_nil (fuel : Nat) : findallAux fuel [] = [] := by cases fuel <;> rfl

/-- The pattern never matches at the end of the input. -/
lemma matchFragmentAt_nil : matchFragmentAt [] = none := rfl

/-- `findFunctionCalls` in terms of the character list. -/
lemma findFunctionCalls_eq (s : String) :
    findFunctionCalls s = findallAux s.data.length s.data := rfl

/-- Stripping a literal from an input that starts with it. -/
lemma dropLit_append (p cs : List Char) : dropLit p (p ++ cs) = some cs := by
  induction p with
  | nil => rfl
  | cons c ps ih => simp [dropLit, ih]

/-- `takeWhile` over an append whose left part satisfies the predicate and
whose right part starts with a failing character. -/
lemma takeWhile_append_eq (f : Char → Bool) (l : List Char) (c : Char) (r : List Char)
    (hl : ∀ x ∈ l, f x = true) (hc : f c = false) :
    (l ++ c :: r).takeWhile f = l := by
  induction l with
  | nil => simp [List.takeWhile, hc]
  | cons x xs ih =>
    simp only [List.cons_append, List.takeWhile_cons, hl x (by simp)]
    simp [ih (fun y hy => hl y (by simp [hy]))]

/-- `dropWhile` over the same split. -/
lemma dropWhile_append_eq (f : Char → Bool) (l : List Char) (c : Char) (r : List Char)
    (hl : ∀ x ∈ l, f x = true) (hc : f c = false) :
    (l ++ c :: r).dropWhile f = c :: r := by
  induction l with
  | nil => simp [List.dropWhile, hc]
  | cons x xs ih =>
    simp only [List.cons_append, List.dropWhile_cons, hl x (by simp)]
    simp [ih (fun y hy => hl y (by simp [hy]))]

/-- A well-formed fragment anchored at the head of the input matches, with
the identifier and the lazily captured interior as the two groups. -/
lemma matchFragmentAt_wellFormed (l : List Char) (hne : l ≠ [])
    (hw : ∀ c ∈ l, isWordChar c = true) (tail rest : List Char) (interior : String)
    (hlazy : lazyInterior [] tail = some (interior, rest)) :
    matchFragmentAt (functionTag ++ (l ++ lbrace :: tail)) = some (⟨l⟩, interior, rest) := by
  have hie : l.isEmpty = false := by
    cases l with
    | nil => exact absurd rfl hne
    | cons _ _ => rfl
  have hlb : isWordChar lbrace = false := by decide
  simp only [matchFragmentAt, dropLit_append,
    takeWhile_append_eq isWordChar l lbrace tail hw hlb,
    dropWhile_append_eq isWordChar l lbrace tail hw hlb, hie]
  simp [hlazy]

/-- One successful match at the head of the scan emits its groups and
resumes after the match. -/
lemma findallAux_match (cs : List Char) {nm int : String} {rest : List Char} (fuel : Nat)
    (h : matchFragmentAt cs = some (nm, int, rest)) :
    findallAux (fuel + 1) cs = (nm, int) :: findallAux fuel rest := by
  cases cs with
  | nil => exact absurd h (by simp [matchFragmentAt, functionTag, dropLit])
  | cons c cs' => simp [findallAux, h]

/-- If the pattern matches at no position, the scan returns the empty list. -/
lemma findallAux_none : ∀ (fuel : Nat) (cs : List Char),
    (∀ i, matchFragmentAt (cs.drop i) = none) → findallAux fuel cs = []
  | 0, _, _ => rfl
  | _ + 1, [], _ => rfl
  | fuel + 1, c :: rest, h => by
    have h0 := h 0
    simp only [List.drop_zero] at h0
    simp only [findallAux, h0]
    exact findallAux_none fuel rest (fun i => by
      have := h (i + 1)
      simpa using this)

/-! ## C5: parser positive contract -/

/-- **C5.** Parser positive contract. First conjunct: for every identifier
`name` that is nonempty and made of word characters (`[A-Za-z0-9_]`), the
parser applied to the well-formed fragment `<function=name{"a":"b"}>` yields
exactly the pair `(name, "a":"b")` — the raw argument interior without the
outer braces. Second conjunct: that fragment, re-wrapped with `{` `}` (the
captured interior lacks them), decodes to the JSON object `{"a":"b"}`. Third
conjunct: multiple occurrences are reported in left-to-right order of
appearance. -/
theorem c5_parser_positive_contract (name : String) (hne : name.data ≠ [])
    (hw : ∀ c ∈ name.data, isWordChar c = true) :
    findFunctionCalls ("<function=" ++ name ++ "\x7b\"a\":\"b\"\x7d>")
      = [(name, "\"a\":\"b\"")]
    ∧ jsonLoads ("\x7b" ++ "\"a\":\"b\"" ++ "\x7d") = .ok (.obj [("a", .str "b")])
    ∧ findFunctionCalls
        "See <function=alpha\x7b\"k\":1\x7d> then <function=beta_2\x7b\"m\":2\x7d> end."
      = [("alpha", "\"k\":1"), ("beta_2", "\"m\":2")] := by
  refine ⟨?_, rfl, by decide⟩
  obtain ⟨l⟩ := name
  have hdata : ("<function=" ++ (⟨l⟩ : String) ++ "\x7b\"a\":\"b\"\x7d>").data
      = (functionTag ++ l) ++ (lbrace :: abTail) := rfl
  have hmatch : matchFragmentAt ((functionTag ++ l) ++ (lbrace :: abTail))
      = some (⟨l⟩, "\"a\":\"b\"", []) := by
    rw [List.append_assoc]
    exact matchFragmentAt_wellFormed l hne hw abTail [] _ rfl
  have hlen : ((functionTag ++ l) ++ (lbrace :: abTail)).length = (l.length + 19) + 1 := by
    simp [functionTag, abTail]
  rw [findFunctionCalls_eq, hdata, hlen, findallAux_match _ _ hmatch]
  simp [findallAux_nil]

/-- Witness for C5 at the concrete identifier `search`. -/
theorem c5_parser_positive_contract_witness :
    findFunctionCalls ("<function=" ++ "search" ++ "\x7b\"a\":\"b\"\x7d>")
      = [("search", "\"a\":\"b\"")]
    ∧ jsonLoads ("\x7b" ++ "\"a\":\"b\"" ++ "\x7d") = .ok (.obj [("a", .str "b")])
    ∧ findFunctionCalls
        "See <function=alpha\x7b\"k\":1\x7d> then <function=beta_2\x7b\"m\":2\x7d> end."
      = [("alpha", "\"k\":1"), ("beta_2", "\"m\":2")] :=
  c5_parser_positive_contract "search" (by decide) (by decide)

/-! ## C6: parser negative contract -/

/-- **C6.** Parser negative contract: any input at which the pattern matches
at no position — which covers ordinary prose with stray `<` or `{`
characters, and braceless forms like `<function=NAME"a":"b">` — produces the
empty match list. (The parser is a total Lean function, so it cannot raise
on any input.) -/
theorem c6_parser_negative_contract (s : String)
    (h : ∀ i < s.data.length, matchFragmentAt (s.data.drop i) = none) :
    findFunctionCalls s = [] := by
  rw [findFunctionCalls_eq]
  apply findallAux_none
  intro i
  by_cases hi : i < s.data.length
  · exact h i hi
  · rw [List.drop_eq_nil_of_le (Nat.le_of_not_lt hi)]
    exact matchFragmentAt_nil

/-- Witness for C6 at a braceless malformed fragment and at ordinary prose
with stray `<`, `{`, `}` characters. -/
theorem c6_parser_negative_contract_witness :
    findFunctionCalls "<function=NAME\"a\":\"b\">" = []
    ∧ findFunctionCalls "Ordinary prose with a stray < and a \x7b brace \x7d and more >." = [] :=
  ⟨c6_parser_negative_contract _ (by decide),
   c6_parser_negative_contract _ (by decide)⟩

/-! ## C7: Result Formatter contract -/

/-- **C7.** Result Formatter contract, case by case and in priority order:
absent payload (`None`) gives the empty string; a plain-text payload is
returned unchanged (identity), hence formatting an already-formatted string
again returns the same string (idempotence, conjunct 3); a sequence is
joined with newline separators from its items' texts, where each item
prefers its `text` attribute, then a `"text"` dict entry, then a best-effort
rendering with the fixed item placeholder; a structured object with a `text`
field gives that field's value regardless of the later cases; one without it
gives the pretty-printed serialization when that exists; and anything else
gives the best-effort rendering, falling back to the fixed placeholder. -/
theorem c7_formatter_contract :
    (format_tool_result .pyNone = "")
    ∧ (∀ s, format_tool_result (.pyStr s) = s)
    ∧ (∀ c, format_tool_result (.pyStr (format_tool_result c)) = format_tool_result c)
    ∧ (∀ items, format_tool_result (.pyList items)
        = String.intercalate "\n" (items.map formatItem))
    ∧ (∀ t d r, formatItem ⟨some t, d, r⟩ = t)
    ∧ (∀ t r, formatItem ⟨none, some t, r⟩ = t)
    ∧ (∀ s, formatItem ⟨none, none, some s⟩ = s)
    ∧ (formatItem ⟨none, none, none⟩ = "[Unprintable item]")
    ∧ (∀ t d r, format_tool_result (.pyDict (some t) d r) = t)
    ∧ (∀ d r, format_tool_result (.pyDict none (some d) r) = d)
    ∧ (∀ r, format_tool_result (.pyDict none none (some r)) = r)
    ∧ (format_tool_result (.pyDict none none none) = "[Unprintable content]")
    ∧ (∀ s, format_tool_result (.pyOther (some s)) = s)
    ∧ (format_tool_result (.pyOther none) = "[Unprintable content]") :=
  ⟨rfl, fun _ => rfl, fun _ => rfl, fun _ => rfl, fun _ _ _ => rfl, fun _ _ => rfl,
   fun _ => rfl, rfl, fun _ _ _ => rfl, fun _ _ => rfl, fun _ => rfl, rfl,
   fun _ => rfl, rfl⟩

/-! ## C8: single-round termination -/

/-- **C8.** Whenever the Completion Provider's first-round response is text
`t` containing no call fragments (and the single log write succeeds), the
loop terminates after exactly one round for any positive fuel, returning a
conversation of exactly 2 messages: the seed user message and one assistant
message. Any query text is accepted, including the empty string (see the
witness). -/
theorem c8_single_round_termination (env : Env) (q t : String) (fuel : Nat)
    (hfuel : 1 ≤ fuel)
    (hgen : env.gen [⟨"user", q, none⟩] = .ok (some t))
    (hfind : findFunctionCalls t = [])
    (hlog : env.logWrite [⟨"user", q, none⟩, ⟨"assistant", t, none⟩] = .ok ()) :
    process_query env fuel q = some [⟨"user", q, none⟩, ⟨"assistant", t, none⟩] := by
  obtain ⟨n, rfl⟩ : ∃ n, fuel = n + 1 :=
    ⟨fuel - 1, (Nat.succ_pred_eq_of_pos hfuel).symm⟩
  simp [process_query, processLoop, hgen, hfind, hlog]

/-- Witness for C8: the empty query against a fragment-free provider yields
the degenerate 2-message exchange. -/
theorem c8_single_round_termination_witness :
    process_query plainEnv 3 "" =
      some [⟨"user", "", none⟩, ⟨"assistant", "Done.", none⟩] :=
  c8_single_round_termination plainEnv "" "Done." 3 (by decide) rfl (by decide) rfl

/-! ## Extension lemmas: every step of the loop only appends messages -/

/-- The per-call failure handler only appends to the message list. -/
lemma callMsgs_toolCallFailure (env : Env) (name : String) (msgs : List Message) (e : String) :
    ∃ t, callMsgs (toolCallFailure env name msgs e) = msgs ++ t := by
  simp only [toolCallFailure]
  split
  · exact ⟨_, rfl⟩
  · exact ⟨_, rfl⟩

/-- Processing one call fragment only appends to the message list. -/
lemma callMsgs_processOneCall (env : Env) (name a : String) (msgs : List Message) :
    ∃ t, callMsgs (processOneCall env name a msgs) = msgs ++ t := by
  simp only [processOneCall]
  split
  · exact callMsgs_toolCallFailure ..
  · split
    · exact callMsgs_toolCallFailure ..
    · split
      · exact ⟨_, rfl⟩
      · obtain ⟨t, ht⟩ := callMsgs_toolCallFailure env name
          (msgs ++ [⟨"user", "Tool '" ++ name ++ "' returned: "
            ++ format_tool_result _, none⟩]) _
        exact ⟨_, by rw [ht, List.append_assoc]⟩

/-- Processing a whole batch of call fragments only appends. -/
lemma callMsgs_processCalls (env : Env) : ∀ (ms : List (String × String)) (msgs : List Message),
    ∃ t, callMsgs (processCalls env ms msgs) = msgs ++ t
  | [], msgs => ⟨[], by simp [processCalls, callMsgs]⟩
  | (name, a) :: rest, msgs => by
    obtain ⟨t1, ht1⟩ := callMsgs_processOneCall env name a msgs
    cases h : processOneCall env name a msgs with
    | ok msgs1 =>
      rw [h] at ht1
      simp only [callMsgs] at ht1
      subst ht1
      obtain ⟨t2, ht2⟩ := callMsgs_processCalls env rest (msgs ++ t1)
      refine ⟨t1 ++ t2, ?_⟩
      simp only [processCalls, h]
      rw [ht2, List.append_assoc]
    | error p =>
      refine ⟨t1, ?_⟩
      rw [h] at ht1
      simp only [processCalls, h]
      exact ht1

/-- Every run of the loop, whatever its outcome, only appends to the message
list it was entered with — so the list handed to each completion round (the
entry state of each recursive unfolding) extends the list handed to the
previous round. -/
lemma loopMsgs_processLoop (env : Env) : ∀ (fuel : Nat) (msgs : List Message),
    ∃ t, (processLoop env fuel msgs).msgs = msgs ++ t
  | 0, msgs => ⟨[], by simp [processLoop, LoopOutcome.msgs]⟩
  | fuel + 1, msgs => by
    simp only [processLoop]
    cases hg : env.gen msgs with
    | error e => exact ⟨[], by simp [LoopOutcome.msgs]⟩
    | ok co =>
      cases hl : env.logWrite (msgs ++ [⟨"assistant", co.getD "", none⟩]) with
      | error e =>
        exact ⟨[⟨"assistant", co.getD "", none⟩], by simp [hl, LoopOutcome.msgs]⟩
      | ok u =>
        simp only [hl]
        split
        · exact ⟨[⟨"assistant", co.getD "", none⟩], by simp [LoopOutcome.msgs]⟩
        · obtain ⟨t2, ht2⟩ := callMsgs_processCalls env
            (findFunctionCalls (co.getD "")) (msgs ++ [⟨"assistant", co.getD "", none⟩])
          cases hp : processCalls env (findFunctionCalls (co.getD ""))
              (msgs ++ [⟨"assistant", co.getD "", none⟩]) with
          | error p =>
            rw [hp] at ht2
            simp only [callMsgs] at ht2
            simp only [hp]
            exact ⟨⟨"assistant", co.getD "", none⟩ :: t2,
              by simp [LoopOutcome.msgs, ht2]⟩
          | ok msgs2 =>
            rw [hp] at ht2
            simp only [callMsgs] at ht2
            obtain ⟨t3, ht3⟩ := loopMsgs_processLoop env fuel msgs2
            simp only [hp]
            refine ⟨⟨"assistant", co.getD "", none⟩ :: (t2 ++ t3), ?_⟩
            rw [ht3, ht2]
            simp [List.append_assoc]

/-! ## C9: the conversation is append-only -/

/-- **C9.** Append-only invariant, stated as: the entry state is recovered
unchanged by `take` from every later state. Whatever the environment,
processing one call, processing a batch of calls, and any number of loop
rounds each leave the message list they started from as an unchanged initial
segment (messages are only appended — never reordered, removed, or modified
in place); consequently the list handed to each completion round extends the
list handed to the previous round, and the list `process_query` returns
starts with the seed user message. -/
theorem c9_append_only (env : Env) (fuel : Nat) (msgs : List Message)
    (ms : List (String × String)) (name a q : String) :
    (callMsgs (processOneCall env name a msgs)).take msgs.length = msgs
    ∧ (callMsgs (processCalls env ms msgs)).take msgs.length = msgs
    ∧ ((processLoop env fuel msgs).msgs).take msgs.length = msgs
    ∧ ((process_query env fuel q).getD [⟨"user", q, none⟩]).take 1 = [⟨"user", q, none⟩] := by
  refine ⟨?_, ?_, ?_, ?_⟩
  · obtain ⟨t, ht⟩ := callMsgs_processOneCall env name a msgs
    rw [ht]
    exact List.take_left _ _
  · obtain ⟨t, ht⟩ := callMsgs_processCalls env ms msgs
    rw [ht]
    exact List.take_left _ _
  · obtain ⟨t, ht⟩ := loopMsgs_processLoop env fuel msgs
    rw [ht]
    exact List.take_left _ _
  · obtain ⟨t, ht⟩ := loopMsgs_processLoop env fuel [⟨"user", q, none⟩]
    cases hout : processLoop env fuel [⟨"user", q, none⟩] with
    | done m =>
      rw [hout] at ht
      simp only [LoopOutcome.msgs] at ht
      simp only [process_query, hout, Option.getD_some]
      rw [ht]
      exact List.take_left ([⟨"user", q, none⟩] : List Message) t
    | spinning m =>
      simp [process_query, hout]
    | raised m e =>
      rw [hout] at ht
      simp only [LoopOutcome.msgs] at ht
      simp only [process_query, hout]
      split
      · simp
      · simp only [Option.getD_some]
        rw [ht, List.append_assoc]
        exact List.take_left ([⟨"user", q, none⟩] : List Message) _

/-! ## Role-discipline lemmas -/

/-- A user-role message without `tool_call_id` satisfies the role
discipline, whatever its content. -/
lemma roleOk_user (c : String) : roleOk ⟨"user", c, none⟩ = true := rfl

/-- An assistant-role message without `tool_call_id` satisfies the role
discipline, whatever its content. -/
lemma roleOk_assistant (c : String) : roleOk ⟨"assistant", c, none⟩ = true := rfl

/-- The per-call failure handler preserves the role discipline (it appends a
user-role error notice). -/
lemma roleOk_toolCallFailure (env : Env) (name : String) (msgs : List Message) (e : String)
    (h : msgs.all roleOk = true) :
    (callMsgs (toolCallFailure env name msgs e)).all roleOk = true := by
  simp only [toolCallFailure]
  split
  · simp [callMsgs, List.all_append, h, roleOk_user]
  · simp [callMsgs, List.all_append, h, roleOk_user]

/-- Processing one call fragment preserves the role discipline (tool results
and tool errors are appended as user-role messages). -/
lemma roleOk_processOneCall (env : Env) (name a : String) (msgs : List Message)
    (h : msgs.all roleOk = true) :
    (callMsgs (processOneCall env name a msgs)).all roleOk = true := by
  simp only [processOneCall]
  split
  · exact roleOk_toolCallFailure _ _ _ _ h
  · split
    · exact roleOk_toolCallFailure _ _ _ _ h
    · split
      · simp [callMsgs, List.all_append, h, roleOk_user]
      · exact roleOk_toolCallFailure _ _ _ _ (by simp [List.all_append, h, roleOk_user])

/-- Processing a batch of call fragments preserves the role discipline. -/
lemma roleOk_processCalls (env : Env) : ∀ (ms : List (String × String)) (msgs : List Message),
    msgs.all roleOk = true → (callMsgs (processCalls env ms msgs)).all roleOk = true
  | [], msgs, h => by simpa [processCalls, callMsgs] using h
  | (name, a) :: rest, msgs, h => by
    have h1 := roleOk_processOneCall env name a msgs h
    cases hc : processOneCall env name a msgs with
    | ok msgs1 =>
      rw [hc] at h1
      simp only [callMsgs] at h1
      simp only [processCalls, hc]
      exact roleOk_processCalls env rest msgs1 h1
    | error p =>
      rw [hc] at h1
      simp only [processCalls, hc]
      exact h1

/-- The loop preserves the role discipline (completions are appended as
assistant-role messages). -/
lemma roleOk_processLoop (env : Env) : ∀ (fuel : Nat) (msgs : List Message),
    msgs.all roleOk = true → ((processLoop env fuel msgs).msgs).all roleOk = true
  | 0, msgs, h => by simpa [processLoop, LoopOutcome.msgs] using h
  | fuel + 1, msgs, h => by
    simp only [processLoop]
    cases hg : env.gen msgs with
    | error e => simpa [LoopOutcome.msgs] using h
    | ok co =>
      have h1 : (msgs ++ [(⟨"assistant", co.getD "", none⟩ : Message)]).all roleOk = true := by
        simp only [List.all_append, h, Bool.true_and]
        simp [roleOk_assistant]
      cases hl : env.logWrite (msgs ++ [⟨"assistant", co.getD "", none⟩]) with
      | error e => simpa [hl, LoopOutcome.msgs] using h1
      | ok u =>
        simp only [hl]
        split
        · simpa [LoopOutcome.msgs] using h1
        · have h2 := roleOk_processCalls env (findFunctionCalls (co.getD ""))
            (msgs ++ [⟨"assistant", co.getD "", none⟩]) h1
          cases hp : processCalls env (findFunctionCalls (co.getD ""))
              (msgs ++ [⟨"assistant", co.getD "", none⟩]) with
          | error p =>
            rw [hp] at h2
            simpa [LoopOutcome.msgs] using h2
          | ok msgs2 =>
            rw [hp] at h2
            simp only [callMsgs] at h2
            simp only [hp]
            exact roleOk_processLoop env fuel msgs2 h2

/-! ## C10: role invariant of the returned conversation -/

/-- **C10.** Every message in a conversation returned by `process_query` has
role `"user"` or `"assistant"` and carries no `tool_call_id` field: the seed
query, tool results and tool-error notices are user-role, completions and
the synthetic error answer are assistant-role, and no system-role or
tool-role message ever appears. -/
theorem c10_role_invariant (env : Env) (fuel : Nat) (q : String) (out : List Message)
    (h : process_query env fuel q = some out) :
    out.all roleOk = true := by
  have hloop := roleOk_processLoop env fuel [⟨"user", q, none⟩] (by simp [roleOk_user])
  cases hout : processLoop env fuel [⟨"user", q, none⟩] with
  | done m =>
    rw [hout] at hloop
    simp only [LoopOutcome.msgs] at hloop
    simp only [process_query, hout, Option.some_inj] at h
    subst h
    exact hloop
  | spinning m =>
    simp [process_query, hout] at h
  | raised m e =>
    rw [hout] at hloop
    simp only [LoopOutcome.msgs] at hloop
    simp only [process_query, hout] at h
    split at h
    · simp only [Option.some_inj] at h
      subst h
      simp [roleOk_user, roleOk_assistant]
    · simp only [Option.some_inj] at h
      subst h
      simp only [List.all_append, hloop, Bool.true_and]
      simp [roleOk_assistant]

/-- Witness for C10 on the canonical tool-chain conversation. -/
theorem c10_role_invariant_witness :
    ([⟨"user", "hi", none⟩, ⟨"assistant", round1Text, none⟩,
      ⟨"user", "Tool 'search' returned: 42", none⟩,
      ⟨"assistant", round2Text, none⟩] : List Message).all roleOk = true :=
  c10_role_invariant toolChainEnv 2 "hi" _ rfl
